import Mathlib

/-!
A verification development for `benchmark_analyzer.py`, a line-oriented
metrics analyzer.  The script is embedded shallowly: Python values that can
occur in the pipeline (decoded JSON data) are modelled by the inductive type
`PyVal`; fallible Python expressions (attribute errors, type errors on `+`,
`>` and dict indexing, zero division) are modelled with `Except String`.

Numbers: Python ints are modelled exactly; Python floats are modelled as
exact rationals (`Frac`, an always-normalized numerator/denominator pair
with a fuel-based gcd so that every operation is kernel-computable).  IEEE
rounding, NaN and infinities are outside the model; every numeric constant
appearing in the analyzed properties is exactly representable.
-/

/-! ## Exact rational numbers with kernel-computable normalization -/

/-- Euclidean gcd with explicit fuel (structural recursion, so the kernel
can evaluate it; the fuel `x + 1` always suffices for `natGcd x y`). -/
def natGcdAux : Nat → Nat → Nat → Nat
  | 0, _, y => y
  | fuel + 1, x, y => if x = 0 then y else natGcdAux fuel (y % x) x

def natGcd (x y : Nat) : Nat := natGcdAux (x + 1) x y

/-- A rational number as numerator over positive denominator, kept
normalized by the smart constructor `mkFrac`. -/
structure Frac where
  num : Int
  den : Nat
deriving DecidableEq, Repr

/-- Build a normalized fraction from an integer numerator and a nonzero
integer denominator (the zero-denominator case is never reached by the
embedded operations, which guard division). -/
def mkFrac (n d : Int) : Frac :=
  let n' : Int := if d < 0 then -n else n
  let dn : Nat := d.natAbs
  let g : Nat := natGcd n'.natAbs dn
  if g = 0 then ⟨0, 1⟩ else ⟨n' / (g : Int), dn / g⟩

def fracAdd (a b : Frac) : Frac :=
  mkFrac (a.num * (b.den : Int) + b.num * (a.den : Int)) ((a.den : Int) * (b.den : Int))

def fracDiv (a b : Frac) : Frac :=
  mkFrac (a.num * (b.den : Int)) (b.num * (a.den : Int))

/-- Strict order `a < b` on fractions (denominators are positive by construction). -/
def fracLt (a b : Frac) : Bool :=
  a.num * (b.den : Int) < b.num * (a.den : Int)

def fracEq (a b : Frac) : Bool :=
  a.num * (b.den : Int) = b.num * (a.den : Int)

/-! ## Python values occurring in the pipeline -/

/-- The Python values that can flow through the script: results of
`json.loads` (ints, floats, strings, booleans, `None`, lists, dicts with
string keys — JSON object keys are always strings) and values computed
from them. -/
inductive PyVal where
  | int : Int → PyVal
  | float : Frac → PyVal
  | str : String → PyVal
  | bool : Bool → PyVal
  | null : PyVal
  | list : List PyVal → PyVal
  | dict : List (String × PyVal) → PyVal

/-- Numeric view: Python treats `bool` as an `int` subtype, so `int`,
`float` and `bool` are all usable in arithmetic and comparisons. -/
def toFracNum : PyVal → Option Frac
  | .int n => some ⟨n, 1⟩
  | .float q => some q
  | .bool b => some ⟨if b then 1 else 0, 1⟩
  | _ => none

/-- Python `==` restricted to hashable values (the only place the script
compares values is dict-key lookup, and unhashable keys raise before any
comparison): numbers compare by value across `int`/`float`/`bool`, strings
and `None` compare by identity of kind and content, and values of
different kinds are unequal. -/
def pyEq (a b : PyVal) : Bool :=
  match toFracNum a, toFracNum b with
  | some x, some y => fracEq x y
  | _, _ =>
    match a, b with
    | .str s, .str t => s = t
    | .null, .null => true
    | _, _ => false

/-- Python hashability of the values in the model: lists and dicts are
unhashable, everything else is hashable. -/
def hashable : PyVal → Bool
  | .list _ => false
  | .dict _ => false
  | _ => true

/-- First-match lookup in an association list with string keys (dicts built
by the JSON decoder have unique keys, so first match is the only match). -/
def dictLookup : List (String × PyVal) → String → Option PyVal
  | [], _ => none
  | (k', v) :: rest, k => if k' = k then some v else dictLookup rest k

/-- Insertion into a dict as Python does it: an existing key keeps its
position and gets the new value, a new key is appended at the end. -/
def dictInsert : List (String × PyVal) → String → PyVal → List (String × PyVal)
  | [], k, v => [(k, v)]
  | (k', v') :: rest, k, v =>
    if k' = k then (k', v) :: rest else (k', v') :: dictInsert rest k v

/-- Model of `m.get(k, dflt)`: returns the stored value or the default; raises
`AttributeError` when `m` is not a dict (none of the other modelled values
has a `get` method). -/
def pyGet (m : PyVal) (k : String) (dflt : PyVal) : Except String PyVal :=
  match m with
  | .dict fs =>
    match dictLookup fs k with
    | some v => .ok v
    | none => .ok dflt
  | _ => .error "AttributeError: object has no attribute get"

/-- Python `+` as used by `sum`: defined on numbers (with `int + int`
staying `int` and any `float` operand making the result `float`), a
`TypeError` otherwise.  Sequence concatenation is never reached here
because `sum` starts from the int `0`, so the left operand is always
numeric. -/
def pyAdd (a b : PyVal) : Except String PyVal :=
  match a, b with
  | .int x, .int y => .ok (.int (x + y))
  | .int x, .bool y => .ok (.int (x + if y then 1 else 0))
  | .bool x, .int y => .ok (.int ((if x then 1 else 0) + y))
  | .bool x, .bool y => .ok (.int ((if x then 1 else 0) + if y then 1 else 0))
  | .int x, .float q => .ok (.float (fracAdd ⟨x, 1⟩ q))
  | .float p, .int y => .ok (.float (fracAdd p ⟨y, 1⟩))
  | .bool x, .float q => .ok (.float (fracAdd ⟨if x then 1 else 0, 1⟩ q))
  | .float p, .bool y => .ok (.float (fracAdd p ⟨if y then 1 else 0, 1⟩))
  | .float p, .float q => .ok (.float (fracAdd p q))
  | _, _ => .error "TypeError: unsupported operand type(s) for +"

/-- Python `>` as used by `max`: defined on numbers and on pairs of
strings; other combinations raise `TypeError`.  (Python also orders two
lists lexicographically; list-valued `lazy_streak` fields are outside this
model and treated as a comparison error.) -/
def pyGt (a b : PyVal) : Except String Bool :=
  match toFracNum a, toFracNum b with
  | some x, some y => .ok (fracLt y x)
  | _, _ =>
    match a, b with
    | .str s, .str t => .ok (decide (t < s))
    | _, _ => .error "TypeError: unorderable types for >"

/-- Python true division `/`: always produces a float on numbers, raises
`ZeroDivisionError` on a zero divisor and `TypeError` on non-numbers. -/
def pyDiv (a b : PyVal) : Except String PyVal :=
  match toFracNum a, toFracNum b with
  | some x, some y =>
    if y.num = 0 then .error "ZeroDivisionError: division by zero"
    else .ok (.float (fracDiv x y))
  | _, _ => .error "TypeError: unsupported operand type(s) for /"

/-! ## A model of `json.loads`

A strict JSON decoder over character lists, written with explicit fuel so
every function is structurally recursive and kernel-computable.  It follows
the grammar accepted by Python `json.loads`: the six value forms, the four
whitespace characters, no trailing data.  (The nonstandard `NaN` /
`Infinity` extensions of the Python decoder involve IEEE specials and are
outside the numeric model.) -/

def isJsonWs (c : Char) : Bool := c = ' ' || c = '\t' || c = '\n' || c = '\r'

def skipWs (s : List Char) : List Char := s.dropWhile isJsonWs

def isDigitCh (c : Char) : Bool :=
  48 ≤ c.toNat && c.toNat ≤ 57

/-- Numeric value of a run of decimal digits. -/
def digitsToNat : List Char → Nat → Nat
  | [], acc => acc
  | d :: ds, acc => digitsToNat ds (10 * acc + (d.toNat - 48))

/-- Value of one hexadecimal digit (for the `\uXXXX` escape): the three
ASCII ranges 0-9, a-f, A-F. -/
def hexVal (c : Char) : Option Nat :=
  let n := c.toNat
  if 48 ≤ n && n ≤ 57 then some (n - 48)
  else if 97 ≤ n && n ≤ 102 then some (n - 87)
  else if 65 ≤ n && n ≤ 70 then some (n - 55)
  else none

/-- Body of a JSON string after the opening quote: plain characters, the
short escapes and `\uXXXX`; raw control characters are rejected (strict
mode).  Returns the decoded string and the rest of the input. -/
def parseStringBody : List Char → List Char → Option (String × List Char)
  | [], _ => none
  | c :: rest, acc =>
    if c = '"' then some (String.mk acc.reverse, rest)
    else if c = '\\' then
      match rest with
      | [] => none
      | e :: rest2 =>
        if e = '"' then parseStringBody rest2 ('"' :: acc)
        else if e = '\\' then parseStringBody rest2 ('\\' :: acc)
        else if e = '/' then parseStringBody rest2 ('/' :: acc)
        else if e = 'n' then parseStringBody rest2 ('\n' :: acc)
        else if e = 't' then parseStringBody rest2 ('\t' :: acc)
        else if e = 'r' then parseStringBody rest2 ('\r' :: acc)
        else if e = 'b' then parseStringBody rest2 ('\x08' :: acc)
        else if e = 'f' then parseStringBody rest2 ('\x0c' :: acc)
        else if e = 'u' then
          match rest2 with
          | h1 :: h2 :: h3 :: h4 :: rest3 =>
            match hexVal h1, hexVal h2, hexVal h3, hexVal h4 with
            | some a, some b, some c3, some d =>
              parseStringBody rest3 (Char.ofNat (((a * 16 + b) * 16 + c3) * 16 + d) :: acc)
            | _, _, _, _ => none
          | _ => none
        else none
    else if c.toNat < 32 then none
    else parseStringBody rest (c :: acc)

/-- A JSON number: optional minus, integer part without leading zeros,
optional fraction, optional exponent.  Without fraction and exponent it
decodes to a Python int, otherwise to a float (an exact rational here). -/
def parseNumber (s : List Char) : Option (PyVal × List Char) :=
  let neg : Bool := s.head? = some '-'
  let s1 : List Char := if neg then s.tail else s
  let ipart : Option (List Char × List Char) := match s1 with
    | '0' :: r => some (['0'], r)
    | c :: r =>
      if isDigitCh c then some (c :: r.takeWhile isDigitCh, r.dropWhile isDigitCh)
      else none
    | [] => none
  match ipart with
  | none => none
  | some (ids, s2) =>
    let fpart : Option (List Char × List Char) := match s2 with
      | '.' :: r =>
        let ds := r.takeWhile isDigitCh
        if ds.isEmpty then none else some (ds, r.dropWhile isDigitCh)
      | _ => some ([], s2)
    match fpart with
    | none => none
    | some (fds, s3) =>
      let epart : Option (Option Int × List Char) := match s3 with
        | 'e' :: r | 'E' :: r =>
          let eneg : Bool := r.head? = some '-'
          let r2 : List Char :=
            if r.head? = some '-' || r.head? = some '+' then r.tail else r
          let ds := r2.takeWhile isDigitCh
          if ds.isEmpty then none
          else
            let e : Int := digitsToNat ds 0
            some (some (if eneg then -e else e), r2.dropWhile isDigitCh)
        | _ => some (none, s3)
      match epart with
      | none => none
      | some (exp, s4) =>
        let mant : Int := digitsToNat (ids ++ fds) 0
        let mant := if neg then -mant else mant
        match exp, fds with
        | none, [] => some (.int mant, s4)
        | _, _ =>
          let e10 : Int := (exp.getD 0) - (fds.length : Int)
          let v : Frac :=
            if 0 ≤ e10 then mkFrac (mant * (10 : Int) ^ e10.toNat) 1
            else mkFrac mant ((10 : Int) ^ (-e10).toNat)
          some (.float v, s4)

mutual

/-- Decode one JSON value (with fuel; the fuel passed by `json_loads` is
always sufficient for its input, and running out just reports a decode
failure, which is what the analyzed properties quantify over anyway). -/
def parseVal : Nat → List Char → Option (PyVal × List Char)
  | 0, _ => none
  | fuel + 1, s =>
    match skipWs s with
    | [] => none
    | c :: rest =>
      if c = 'n' then
        match rest with
        | 'u' :: 'l' :: 'l' :: r => some (.null, r)
        | _ => none
      else if c = 't' then
        match rest with
        | 'r' :: 'u' :: 'e' :: r => some (.bool true, r)
        | _ => none
      else if c = 'f' then
        match rest with
        | 'a' :: 'l' :: 's' :: 'e' :: r => some (.bool false, r)
        | _ => none
      else if c = '"' then
        match parseStringBody rest [] with
        | some (str, r) => some (.str str, r)
        | none => none
      else if c = '[' then
        match skipWs rest with
        | ']' :: r => some (.list [], r)
        | _ => parseElems fuel rest []
      else if c = '\x7b' then
        match skipWs rest with
        | '\x7d' :: r => some (.dict [], r)
        | _ => parseMembers fuel rest []
      else parseNumber (c :: rest)

def parseElems : Nat → List Char → List PyVal → Option (PyVal × List Char)
  | 0, _, _ => none
  | fuel + 1, s, acc =>
    match parseVal fuel s with
    | none => none
    | some (v, r) =>
      match skipWs r with
      | ',' :: r2 => parseElems fuel r2 (v :: acc)
      | ']' :: r2 => some (.list (v :: acc).reverse, r2)
      | _ => none

def parseMembers : Nat → List Char → List (String × PyVal) → Option (PyVal × List Char)
  | 0, _, _ => none
  | fuel + 1, s, acc =>
    match skipWs s with
    | '"' :: r =>
      match parseStringBody r [] with
      | none => none
      | some (k, r2) =>
        match skipWs r2 with
        | ':' :: r3 =>
          match parseVal fuel r3 with
          | none => none
          | some (v, r4) =>
            match skipWs r4 with
            | ',' :: r5 => parseMembers fuel r5 (dictInsert acc k v)
            | '\x7d' :: r5 => some (.dict (dictInsert acc k v), r5)
            | _ => none
        | _ => none
    | _ => none

end

/-- The model of `json.loads` on one line: decode one value and require
only whitespace after it. -/
def json_loads (s : String) : Option PyVal :=
  match parseVal (2 * s.data.length + 2) s.data with
  | some (v, rest) => if (skipWs rest).isEmpty then some v else none
  | none => none

/-! ## `parse_metrics` -/

/-- Python `str.strip()` whitespace (the six ASCII whitespace characters;
the further Unicode whitespace Python strips does not occur in JSONL
metric logs). -/
def isPyWs (c : Char) : Bool :=
  c = ' ' || c = '\t' || c = '\n' || c = '\r' || c = '\x0b' || c = '\x0c'

def pyStrip (s : String) : String :=
  String.mk (((s.data.dropWhile isPyWs).reverse.dropWhile isPyWs).reverse)

/-- Iterating a text file line by line, as `for line in f` does: pieces
between newline characters, in order. -/
def splitLinesAux : List Char → List Char → List String
  | [], acc => [String.mk acc.reverse]
  | c :: rest, acc =>
    if c = '\n' then String.mk acc.reverse :: splitLinesAux rest []
    else splitLinesAux rest (c :: acc)

def splitLines (s : String) : List String := splitLinesAux s.data []

/-- The line loop of `parse_metrics`: strip each line, skip it if empty,
append the decoded value if decoding succeeds, silently skip it if
decoding fails. -/
def parseLines : List String → List PyVal
  | [] => []
  | l :: rest =>
    let s := pyStrip l
    if s.data.isEmpty then parseLines rest
    else
      match json_loads s with
      | some v => v :: parseLines rest
      | none => parseLines rest

/-- The file system, as the script sees it: a mapping from paths to file
contents (newest write first). -/
def fsRead : List (String × String) → String → Option String
  | [], _ => none
  | (p, c) :: rest, path => if p = path then some c else fsRead rest path

/-- Model of `open(path, "w")` followed by `write`: the new content shadows any
previous file at the same path. -/
def fsWrite (fs : List (String × String)) (p c : String) : List (String × String) :=
  (p, c) :: fs

/-- Model of `parse_metrics`: on a missing file, print a diagnostic and return the
empty list; otherwise run the line loop over the file content.  The first
component collects the lines printed to standard output. -/
def parse_metrics (fs : List (String × String)) (file_path : String) :
    List String × List PyVal :=
  match fsRead fs file_path with
  | none => (["Error: Metrics file not found at " ++ file_path], [])
  | some content => ([], parseLines (splitLines content))

/-! ## `calculate_stats` -/

/-- The statistics dict built by `calculate_stats`.  Counts are kept as
naturals (they are Python ints produced by `len` and by `+ 1` from `0`);
the remaining numeric entries keep their Python type through `PyVal`. -/
structure Stats where
  total_iterations : Nat
  total_latency : PyVal
  total_tokens : PyVal
  avg_latency : PyVal
  avg_tokens : PyVal
  max_lazy : PyVal
  tools : List (PyVal × Nat)
  models : List (PyVal × Nat)

/-- Model of `sum(m.get(k, 0) for m in metrics)`: fold Python `+` over the fetched
values, starting from the int `0` (carried in `acc`). -/
def pySum (k : String) (acc : PyVal) : List PyVal → Except String PyVal
  | [] => .ok acc
  | m :: rest =>
    match pyGet m k (.int 0) with
    | .error e => .error e
    | .ok v =>
      match pyAdd acc v with
      | .error e => .error e
      | .ok acc2 => pySum k acc2 rest

/-- The running part of `max(...)`: keep the greater value, preferring the
earlier one on ties, as CPython does (`if x > acc`). -/
def pyMaxFold (k : String) (acc : PyVal) : List PyVal → Except String PyVal
  | [] => .ok acc
  | m :: rest =>
    match pyGet m k (.int 0) with
    | .error e => .error e
    | .ok v =>
      match pyGt v acc with
      | .error e => .error e
      | .ok b => pyMaxFold k (if b then v else acc) rest

/-- Model of `max(m.get(k, 0) for m in metrics)`: `ValueError` on an empty
sequence, otherwise start from the first fetched value. -/
def maxField (k : String) : List PyVal → Except String PyVal
  | [] => .error "ValueError: max() arg is an empty sequence"
  | m :: rest =>
    match pyGet m k (.int 0) with
    | .error e => .error e
    | .ok v => pyMaxFold k v rest

/-- Model of `h[t] = h.get(t, 0) + 1` on a dict: bump the entry holding the key (it
keeps its position) or append a fresh entry with count 1. -/
def histAdd : List (PyVal × Nat) → PyVal → List (PyVal × Nat)
  | [], k => [(k, 1)]
  | (k', c) :: rest, k =>
    if pyEq k' k then (k', c + 1) :: rest else (k', c) :: histAdd rest k

/-- The tool/model histogram loop of `calculate_stats`.  Fetching the
`tool` value, using it as a dict key (which requires hashability), then
the same for `model` — in the order the loop body runs them. -/
def buildHists (acc : List (PyVal × Nat) × List (PyVal × Nat)) :
    List PyVal → Except String (List (PyVal × Nat) × List (PyVal × Nat))
  | [] => .ok acc
  | m :: rest =>
    match pyGet m "tool" (.str "unknown") with
    | .error e => .error e
    | .ok t =>
      if hashable t then
        match pyGet m "model" (.str "unknown") with
        | .error e => .error e
        | .ok mdl =>
          if hashable mdl then buildHists (histAdd acc.1 t, histAdd acc.2 mdl) rest
          else .error "TypeError: unhashable type"
      else .error "TypeError: unhashable type"

/-- Model of `calculate_stats`: `None` on an empty list, otherwise the sums, the
guarded averages, the maximum lazy streak and the two histograms, computed
in source order (so the first failing Python expression is the one whose
error surfaces). -/
def calculate_stats (metrics : List PyVal) : Except String (Option Stats) :=
  if metrics.isEmpty then .ok none
  else
    let total_iterations := metrics.length
    match pySum "latency" (.int 0) metrics with
    | .error e => .error e
    | .ok total_latency =>
    match pySum "tokens" (.int 0) metrics with
    | .error e => .error e
    | .ok total_tokens =>
    match (if total_iterations > 0 then pyDiv total_latency (.int total_iterations)
           else .ok (.int 0)) with
    | .error e => .error e
    | .ok avg_latency =>
    match (if total_iterations > 0 then pyDiv total_tokens (.int total_iterations)
           else .ok (.int 0)) with
    | .error e => .error e
    | .ok avg_tokens =>
    match maxField "lazy_streak" metrics with
    | .error e => .error e
    | .ok max_lazy =>
    match buildHists ([], []) metrics with
    | .error e => .error e
    | .ok h =>
      .ok (some ⟨total_iterations, total_latency, total_tokens,
                 avg_latency, avg_tokens, max_lazy, h.1, h.2⟩)

/-- Variant of `calculate_stats` with the two `if total_iterations > 0` fallbacks
removed: used to show those fallback branches are unreachable. -/
def calculate_stats_unguarded (metrics : List PyVal) : Except String (Option Stats) :=
  if metrics.isEmpty then .ok none
  else
    let total_iterations := metrics.length
    match pySum "latency" (.int 0) metrics with
    | .error e => .error e
    | .ok total_latency =>
    match pySum "tokens" (.int 0) metrics with
    | .error e => .error e
    | .ok total_tokens =>
    match pyDiv total_latency (.int total_iterations) with
    | .error e => .error e
    | .ok avg_latency =>
    match pyDiv total_tokens (.int total_iterations) with
    | .error e => .error e
    | .ok avg_tokens =>
    match maxField "lazy_streak" metrics with
    | .error e => .error e
    | .ok max_lazy =>
    match buildHists ([], []) metrics with
    | .error e => .error e
    | .ok h =>
      .ok (some ⟨total_iterations, total_latency, total_tokens,
                 avg_latency, avg_tokens, max_lazy, h.1, h.2⟩)

/-! ## `generate_report` -/

/-- Decimal digits of the fractional part `r / d`, up to the given number
of places (elsewhere used with enough places for an exact or clearly
truncated rendering). -/
def fracDigits : Nat → Nat → Nat → List Char
  | 0, _, _ => []
  | _, 0, _ => []
  | fuel + 1, r, d =>
    Char.ofNat ('0'.toNat + r * 10 / d) :: fracDigits fuel (r * 10 % d) d

/-- Rendering of `str()` on a Python float, modelled on the exact rational: integer
part, point, then the fraction digits (at most 17 places; Python prints
the shortest decimal that round-trips the IEEE double, which agrees on
every value the analyzed properties inspect). -/
def fracRepr (q : Frac) : String :=
  let sign := if q.num < 0 then "-" else ""
  let a := q.num.natAbs
  let ds := fracDigits 17 (a % q.den) q.den
  sign ++ toString (a / q.den) ++ "." ++ (if ds.isEmpty then "0" else String.mk ds)

/-- Rendering of `str()` on the values the report can render.  Containers cannot reach
the report (histogram keys are hashable, and a `max` over container-valued
fields already fails at the comparison), so their rendering is
abbreviated. -/
def pyStr : PyVal → String
  | .int n => toString n
  | .bool b => if b then "True" else "False"
  | .str s => s
  | .null => "None"
  | .float q => fracRepr q
  | .list _ => "[...]"
  | .dict _ => "\x7b...\x7d"

/-- Fixed-point rendering with the given precision, rounding half to even
as Python `format` does. -/
def fmtFixed (q : Frac) (prec : Nat) : String :=
  let scale : Int := (10 : Int) ^ prec
  let den : Int := q.den
  let num := q.num * scale
  let quot := num.fdiv den
  let rem := num.fmod den
  let n := if 2 * rem < den then quot
           else if den < 2 * rem then quot + 1
           else if quot % 2 = 0 then quot else quot + 1
  let a := n.natAbs
  let ip := a / scale.toNat
  let fp := a % scale.toNat
  let fpStr := toString fp
  let pad := String.mk (List.replicate (prec - fpStr.length) '0')
  (if n < 0 then "-" else "") ++ toString ip ++
    (if prec = 0 then "" else "." ++ pad ++ fpStr)

/-- An f-string conversion `:.Nf`: accepts ints, floats and bools (a bool
formats through `int.__format__`), raises on everything else. -/
def pyFormatFixed (v : PyVal) (prec : Nat) : Except String String :=
  match toFracNum v with
  | some q => .ok (fmtFixed q prec)
  | none => .error "TypeError: unsupported format string"

/-- The `report` list of lines built by `generate_report`, given the
already-formatted numeric strings (`latStr` for total latency, then the
two averages).  Entry 1 is the generation-timestamp entry. -/
def summaryLines (s : Stats) (now latStr avgLatStr avgTokStr : String) : List String :=
  ["# Ralph Performance Benchmark Report",
   "\nGenerated on: " ++ now,
   "\n## Summary Metrics",
   "- **Total Iterations:** " ++ toString s.total_iterations,
   "- **Total Execution Time:** " ++ latStr ++ "s",
   "- **Total Tokens (Est):** " ++ pyStr s.total_tokens,
   "- **Average Latency/Iteration:** " ++ avgLatStr ++ "s",
   "- **Average Tokens/Iteration:** " ++ avgTokStr,
   "- **Max Lazy Streak:** " ++ pyStr s.max_lazy,
   "\n## Utilization",
   "\n### Tools Used"]
  ++ s.tools.map (fun p => "- " ++ pyStr p.1 ++ ": " ++ toString p.2 ++ " iterations")
  ++ ["\n### Models Used"]
  ++ s.models.map (fun p => "- " ++ pyStr p.1 ++ ": " ++ toString p.2 ++ " iterations")

/-- Render the `report` list, running the three fallible format
conversions in the order the appends run them. -/
def renderLines (s : Stats) (now : String) : Except String (List String) :=
  match pyFormatFixed s.total_latency 2 with
  | .error e => .error e
  | .ok latStr =>
  match pyFormatFixed s.avg_latency 2 with
  | .error e => .error e
  | .ok avgLatStr =>
  match pyFormatFixed s.avg_tokens 1 with
  | .error e => .error e
  | .ok avgTokStr => .ok (summaryLines s now latStr avgLatStr avgTokStr)

/-- What `generate_report` does to the outside world: the lines it prints
to standard output and the file write it performs, if any. -/
structure ReportResult where
  printed : List String
  written : Option (String × String)

/-- Model of `generate_report`: the "nothing to report" diagnostic on an absent
summary; otherwise render, join with newlines, and either write the file
and print the confirmation, or print the document. -/
def generate_report (stats : Option Stats) (output_file : Option String)
    (now : String) : Except String ReportResult :=
  match stats with
  | none => .ok ⟨["No statistics to report."], none⟩
  | some s =>
    match renderLines s now with
    | .error e => .error e
    | .ok lines =>
      let report_text := String.intercalate "\n" lines
      match output_file with
      | some p => .ok ⟨["Report generated at " ++ p], some (p, report_text)⟩
      | none => .ok ⟨[report_text], none⟩

/-- The `main` pipeline on a given file system: parse, aggregate, report.
Returns the parse diagnostics together with the report effects. -/
def pipeline (fs : List (String × String)) (input : String)
    (output : Option String) (now : String) :
    Except String (List String × ReportResult) :=
  let pm := parse_metrics fs input
  match calculate_stats pm.2 with
  | .error e => .error e
  | .ok st =>
    match generate_report st output now with
    | .error e => .error e
    | .ok r => .ok (pm.1, r)

/-! ## Vocabulary for the analyzed properties -/

def exceptOk {α : Type} : Except String α → Bool
  | .ok _ => true
  | .error _ => false

def isDict : PyVal → Bool
  | .dict _ => true
  | _ => false

/-- Fetching `k` with an int default yields a number: either the field is
absent (default 0) or present with a numeric value. -/
def getsNumeric (m : PyVal) (k : String) : Bool :=
  match pyGet m k (.int 0) with
  | .ok v => (toFracNum v).isSome
  | .error _ => false

/-- Fetching `k` with the given default yields a hashable value. -/
def getsHashable (m : PyVal) (k : String) (dflt : PyVal) : Bool :=
  match pyGet m k dflt with
  | .ok v => hashable v
  | .error _ => false

/-- A record on which every field access of `calculate_stats` is
well-typed: it is a mapping, its numeric fields are absent or numbers, and
its categorical fields are absent or hashable. -/
def recordWellTyped (m : PyVal) : Bool :=
  getsNumeric m "latency" && getsNumeric m "tokens" && getsNumeric m "lazy_streak" &&
    getsHashable m "tool" (.str "unknown") && getsHashable m "model" (.str "unknown")

/-- Apply the file write performed by a report to the file system. -/
def applyReport (fs : List (String × String)) (r : ReportResult) :
    List (String × String) :=
  match r.written with
  | some (p, c) => fsWrite fs p c
  | none => fs

/-- The first record of the worked example in the specification. -/
def r1 : PyVal :=
  .dict [("latency", .float ⟨1, 1⟩), ("tokens", .int 10),
         ("tool", .str "a"), ("model", .str "x")]

/-- The second record of the worked example in the specification. -/
def r2 : PyVal :=
  .dict [("latency", .float ⟨3, 1⟩), ("tokens", .int 20),
         ("tool", .str "b"), ("model", .str "x")]

/-- The summary the worked example must produce. -/
def stats1 : Stats :=
  ⟨2, .float ⟨4, 1⟩, .int 30, .float ⟨2, 1⟩, .float ⟨15, 1⟩, .int 0,
   [(.str "a", 1), (.str "b", 1)], [(.str "x", 2)]⟩

/-- The rendered report lines for `stats1` at a fixed timestamp. -/
def lines1 : List String :=
  match renderLines stats1 "2025-01-01 00:00:00" with
  | .ok l => l
  | .error _ => []

/-- A file with one malformed line followed by one valid line. -/
def malformedThenValid : List String :=
  ["not json", "\x7b\"latency\":1.0,\"tokens\":10,\"tool\":\"a\",\"model\":\"x\"\x7d"]

/-- The summary for the single surviving record of `malformedThenValid`. -/
def statsSingle : Stats :=
  ⟨1, .float ⟨1, 1⟩, .int 10, .float ⟨1, 1⟩, .float ⟨10, 1⟩, .int 0,
   [(.str "a", 1)], [(.str "x", 1)]⟩

/-- The rendered report lines for `stats1` at a second timestamp. -/
def lines2 : List String :=
  match renderLines stats1 "2025-01-02 00:00:00" with
  | .ok l => l
  | .error _ => []

/-! ## Helper lemmas -/

theorem parseLines_eq (ls : List String) :
    parseLines ls =
      ((ls.map pyStrip).filter (fun s => !s.data.isEmpty)).filterMap json_loads := by
  induction ls with
  | nil => rfl
  | cons l rest ih =>
    simp only [parseLines, List.map_cons, List.filter_cons]
    by_cases h : (pyStrip l).data.isEmpty
    · simp [h, ih]
    · cases hj : json_loads (pyStrip l) <;> simp [h, hj, ih]

theorem histAdd_snd_sum (h : List (PyVal × Nat)) (k : PyVal) :
    ((histAdd h k).map Prod.snd).sum = (h.map Prod.snd).sum + 1 := by
  induction h with
  | nil => simp [histAdd]
  | cons p rest ih =>
    obtain ⟨k', c⟩ := p
    by_cases hk : pyEq k' k
    · simp [histAdd, hk]; omega
    · simp [histAdd, hk, ih]; omega

theorem buildHists_sum (ms : List PyVal) :
    ∀ acc res, buildHists acc ms = .ok res →
      (res.1.map Prod.snd).sum = (acc.1.map Prod.snd).sum + ms.length ∧
      (res.2.map Prod.snd).sum = (acc.2.map Prod.snd).sum + ms.length := by
  induction ms with
  | nil =>
    intro acc res h
    simp only [buildHists] at h
    cases h
    simp
  | cons m rest ih =>
    intro acc res h
    simp only [buildHists] at h
    cases hg : pyGet m "tool" (.str "unknown") with
    | error e => simp [hg] at h
    | ok t =>
      simp only [hg] at h
      by_cases ht : hashable t
      · rw [if_pos ht] at h
        cases hg2 : pyGet m "model" (.str "unknown") with
        | error e => simp [hg2] at h
        | ok mdl =>
          simp only [hg2] at h
          by_cases hm : hashable mdl
          · rw [if_pos hm] at h
            have := ih _ _ h
            rw [histAdd_snd_sum, histAdd_snd_sum] at this
            constructor <;> simp only [List.length_cons] <;> omega
          · rw [if_neg hm] at h; cases h
      · rw [if_neg ht] at h; cases h

theorem calculate_stats_spec (ms : List PyVal) (s : Stats)
    (h : calculate_stats ms = .ok (some s)) :
    ms ≠ [] ∧ s.total_iterations = ms.length ∧
      ∃ hh, buildHists ([], []) ms = .ok hh ∧ s.tools = hh.1 ∧ s.models = hh.2 := by
  cases ms with
  | nil => simp [calculate_stats] at h
  | cons m rest =>
    refine ⟨by simp, ?_⟩
    simp only [calculate_stats, List.isEmpty_cons, Bool.false_eq_true, if_false] at h
    simp only [List.length_cons, gt_iff_lt, Nat.zero_lt_succ, if_true] at h
    cases h1 : pySum "latency" (.int 0) (m :: rest) with
    | error e => simp [h1] at h
    | ok tl =>
      simp only [h1] at h
      cases h2 : pySum "tokens" (.int 0) (m :: rest) with
      | error e => simp [h2] at h
      | ok tk =>
        simp only [h2] at h
        split at h
        next e heq3 => cases h
        next al heq3 =>
          split at h
          next e heq4 => cases h
          next ak heq4 =>
            cases h5 : maxField "lazy_streak" (m :: rest) with
            | error e => simp [h5] at h
            | ok ml =>
              simp only [h5] at h
              cases h6 : buildHists ([], []) (m :: rest) with
              | error e => simp [h6] at h
              | ok hh =>
                simp only [h6, Except.ok.injEq, Option.some.injEq] at h
                subst h
                exact ⟨rfl, hh, rfl, rfl, rfl⟩

theorem calculate_stats_cons_ne_none (m : PyVal) (rest : List PyVal) :
    calculate_stats (m :: rest) ≠ .ok none := by
  intro h
  simp only [calculate_stats, List.isEmpty_cons, Bool.false_eq_true, if_false] at h
  repeat' split at h
  all_goals cases h

theorem pyGet_numeric {m : PyVal} {k : String} (h : getsNumeric m k = true) :
    ∃ v, pyGet m k (.int 0) = .ok v ∧ (toFracNum v).isSome = true := by
  unfold getsNumeric at h
  cases hg : pyGet m k (.int 0) with
  | error e => simp [hg] at h
  | ok v => simp only [hg] at h; exact ⟨v, rfl, h⟩

theorem pyGet_hashable {m : PyVal} {k : String} {d : PyVal}
    (h : getsHashable m k d = true) :
    ∃ v, pyGet m k d = .ok v ∧ hashable v = true := by
  unfold getsHashable at h
  cases hg : pyGet m k d with
  | error e => simp [hg] at h
  | ok v => simp only [hg] at h; exact ⟨v, rfl, h⟩

theorem pyAdd_numeric {a b : PyVal} (ha : (toFracNum a).isSome = true)
    (hb : (toFracNum b).isSome = true) :
    ∃ c, pyAdd a b = .ok c ∧ (toFracNum c).isSome = true := by
  cases a <;> cases b <;>
    first
      | exact ⟨_, rfl, rfl⟩
      | simp [toFracNum] at ha hb

theorem pyGt_ok {a b : PyVal} (ha : (toFracNum a).isSome = true)
    (hb : (toFracNum b).isSome = true) : ∃ r, pyGt a b = .ok r := by
  obtain ⟨x, hx⟩ := Option.isSome_iff_exists.mp ha
  obtain ⟨y, hy⟩ := Option.isSome_iff_exists.mp hb
  exact ⟨fracLt y x, by simp [pyGt, hx, hy]⟩

theorem pyDiv_ok {a : PyVal} (ha : (toFracNum a).isSome = true) {n : Int}
    (hn : n ≠ 0) : ∃ c, pyDiv a (.int n) = .ok c := by
  obtain ⟨x, hx⟩ := Option.isSome_iff_exists.mp ha
  refine ⟨.float (fracDiv x ⟨n, 1⟩), ?_⟩
  unfold pyDiv
  rw [hx]
  simp [toFracNum, hn]

theorem pySum_ok (k : String) (ms : List PyVal) :
    ∀ acc : PyVal, (∀ m ∈ ms, getsNumeric m k = true) →
      (toFracNum acc).isSome = true →
      ∃ r, pySum k acc ms = .ok r ∧ (toFracNum r).isSome = true := by
  induction ms with
  | nil => intro acc _ hacc; exact ⟨acc, rfl, hacc⟩
  | cons m rest ih =>
    intro acc hall hacc
    obtain ⟨v, hv, hvn⟩ := pyGet_numeric (hall m (by simp))
    obtain ⟨c, hc, hcn⟩ := pyAdd_numeric hacc hvn
    obtain ⟨r, hr, hrn⟩ := ih c (fun m' hm' => hall m' (by simp [hm'])) hcn
    exact ⟨r, by simp only [pySum, hv, hc]; exact hr, hrn⟩

theorem pyMaxFold_ok (k : String) (ms : List PyVal) :
    ∀ acc : PyVal, (∀ m ∈ ms, getsNumeric m k = true) →
      (toFracNum acc).isSome = true →
      ∃ r, pyMaxFold k acc ms = .ok r := by
  induction ms with
  | nil => intro acc _ _; exact ⟨acc, rfl⟩
  | cons m rest ih =>
    intro acc hall hacc
    obtain ⟨v, hv, hvn⟩ := pyGet_numeric (hall m (by simp))
    obtain ⟨b, hb⟩ := pyGt_ok hvn hacc
    have hacc2 : (toFracNum (if b then v else acc)).isSome = true := by
      cases b <;> simp [hvn, hacc]
    obtain ⟨r, hr⟩ := ih _ (fun m' hm' => hall m' (by simp [hm'])) hacc2
    exact ⟨r, by simp only [pyMaxFold, hv, hb]; exact hr⟩

theorem maxField_ok (k : String) (m : PyVal) (rest : List PyVal)
    (hall : ∀ x ∈ m :: rest, getsNumeric x k = true) :
    ∃ r, maxField k (m :: rest) = .ok r := by
  obtain ⟨v, hv, hvn⟩ := pyGet_numeric (hall m (by simp))
  obtain ⟨r, hr⟩ := pyMaxFold_ok k rest v (fun x hx => hall x (by simp [hx])) hvn
  exact ⟨r, by simp only [maxField, hv]; exact hr⟩

theorem buildHists_ok (ms : List PyVal) :
    ∀ acc, (∀ m ∈ ms, getsHashable m "tool" (.str "unknown") = true ∧
        getsHashable m "model" (.str "unknown") = true) →
      ∃ r, buildHists acc ms = .ok r := by
  induction ms with
  | nil => intro acc _; exact ⟨acc, rfl⟩
  | cons m rest ih =>
    intro acc hall
    obtain ⟨t, ht, hth⟩ := pyGet_hashable (hall m (by simp)).1
    obtain ⟨mdl, hm, hmh⟩ := pyGet_hashable (hall m (by simp)).2
    obtain ⟨r, hr⟩ := ih (histAdd acc.1 t, histAdd acc.2 mdl)
      (fun m' hm' => hall m' (by simp [hm']))
    refine ⟨r, ?_⟩
    simp only [buildHists, ht, hm, hth, hmh, if_true]
    exact hr

theorem length_filterMap_countP (f : String → Option PyVal) (l : List String) :
    (l.filterMap f).length = l.countP (fun s => (f s).isSome) := by
  induction l with
  | nil => rfl
  | cons a l ih => cases hf : f a <;> simp [List.filterMap_cons, hf, List.countP_cons, ih]

theorem pyDiv_int_ne_error {a : PyVal} (ha : (toFracNum a).isSome = true) (n : Int)
    (hn : n ≠ 0) (e : String) : pyDiv a (.int n) ≠ .error e := by
  obtain ⟨x, hx⟩ := Option.isSome_iff_exists.mp ha
  unfold pyDiv
  rw [hx]
  simp [toFracNum, hn]

/-! ## The analyzed properties -/

/-- C1: on the two-record input of the worked example, `calculate_stats`
returns a summary with total_iterations 2, total_latency 4.0 (float),
avg_latency 2.0, total_tokens 30 (int), avg_tokens 15.0, a tools histogram
mapping "a" to 1 and "b" to 1, and a models histogram mapping "x" to 2
(`stats1` spells out exactly these values). -/
theorem claim_C1_worked_example : calculate_stats [r1, r2] = .ok (some stats1) := rfl

/-- C2: whenever `calculate_stats` returns a summary, the counts in the
tools histogram sum to total_iterations, and so do the counts in the
models histogram. -/
theorem claim_C2_histogram_counts_sum (ms : List PyVal) (s : Stats)
    (h : calculate_stats ms = .ok (some s)) :
    (s.tools.map Prod.snd).sum = s.total_iterations ∧
    (s.models.map Prod.snd).sum = s.total_iterations := by
  obtain ⟨-, hlen, hh, hb, htools, hmodels⟩ := calculate_stats_spec ms s h
  have hs := buildHists_sum ms ([], []) hh hb
  rw [htools, hmodels, hlen]
  simpa using hs

theorem claim_C2_witness :
    calculate_stats [r1, r2] = .ok (some stats1) ∧
    (stats1.tools.map Prod.snd).sum = stats1.total_iterations ∧
    (stats1.models.map Prod.snd).sum = stats1.total_iterations :=
  ⟨rfl, claim_C2_histogram_counts_sum [r1, r2] stats1 rfl⟩

/-- C6: an empty record list makes `calculate_stats` return the absent
summary, and `generate_report` on an absent summary prints exactly the
single "nothing to report" diagnostic, performs no file write, and
returns normally (no exception) for every output-path choice. -/
theorem claim_C6_empty_input (out : Option String) (now : String) :
    calculate_stats [] = .ok none ∧
    generate_report none out now = .ok ⟨["No statistics to report."], none⟩ :=
  ⟨rfl, rfl⟩

theorem claim_C6_witness :
    calculate_stats [] = .ok none ∧
    generate_report none none "2025-01-01 00:00:00" =
      .ok ⟨["No statistics to report."], none⟩ :=
  claim_C6_empty_input none "2025-01-01 00:00:00"

/-- C7: on a path that does not exist in the file system, `parse_metrics`
prints the missing-file diagnostic and returns the empty record sequence,
and the whole pipeline still runs to completion, ending in the "nothing to
report" outcome with no file write and no exception. -/
theorem claim_C7_missing_file (fs : List (String × String)) (path : String)
    (out : Option String) (now : String) (h : fsRead fs path = none) :
    parse_metrics fs path = (["Error: Metrics file not found at " ++ path], []) ∧
    pipeline fs path out now =
      .ok (["Error: Metrics file not found at " ++ path],
           ⟨["No statistics to report."], none⟩) := by
  have hp : parse_metrics fs path =
      (["Error: Metrics file not found at " ++ path], []) := by
    unfold parse_metrics
    rw [h]
  refine ⟨hp, ?_⟩
  unfold pipeline
  rw [hp]
  rfl

theorem claim_C7_witness :
    parse_metrics [] "metrics.json" =
      (["Error: Metrics file not found at metrics.json"], []) ∧
    pipeline [] "metrics.json" none "2025-01-01 00:00:00" =
      .ok (["Error: Metrics file not found at metrics.json"],
           ⟨["No statistics to report."], none⟩) :=
  claim_C7_missing_file [] "metrics.json" none "2025-01-01 00:00:00" rfl

/-- C10: `calculate_stats` returns the absent summary exactly on the empty
record list; every returned summary has total_iterations equal to the
input length and at least 1; and removing the two zero-count guards in
front of the average divisions does not change the function, so those
fallback branches are unreachable and both divisions are safe. -/
theorem claim_C10_absent_iff_empty :
    (∀ ms, calculate_stats ms = .ok none ↔ ms = []) ∧
    (∀ ms s, calculate_stats ms = .ok (some s) →
      s.total_iterations = ms.length ∧ 1 ≤ s.total_iterations) ∧
    (∀ ms, calculate_stats_unguarded ms = calculate_stats ms) := by
  refine ⟨?_, ?_, ?_⟩
  · intro ms
    constructor
    · intro h
      cases ms with
      | nil => rfl
      | cons m rest => exact absurd h (calculate_stats_cons_ne_none m rest)
    · rintro rfl
      rfl
  · intro ms s h
    obtain ⟨hne, hlen, -⟩ := calculate_stats_spec ms s h
    refine ⟨hlen, ?_⟩
    rw [hlen]
    cases ms with
    | nil => exact absurd rfl hne
    | cons _ _ => simp
  · intro ms
    cases ms with
    | nil => rfl
    | cons m rest =>
      simp only [calculate_stats, calculate_stats_unguarded, List.isEmpty_cons,
        Bool.false_eq_true, if_false, List.length_cons, gt_iff_lt,
        Nat.zero_lt_succ, if_true]

theorem claim_C10_witness :
    (calculate_stats [] = .ok none ↔ ([] : List PyVal) = []) ∧
    (stats1.total_iterations = [r1, r2].length ∧ 1 ≤ stats1.total_iterations) ∧
    calculate_stats_unguarded [r1, r2] = calculate_stats [r1, r2] :=
  ⟨claim_C10_absent_iff_empty.1 [],
   claim_C10_absent_iff_empty.2.1 [r1, r2] stats1 rfl,
   claim_C10_absent_iff_empty.2.2 [r1, r2]⟩

/-- C4 as frozen is false: a line holding the bare number `42` decodes
successfully, and `parse_metrics` appends the decoded int as a record even
though it is not a mapping. -/
theorem claim_C4_counterexample :
    parseLines ["42"] = [PyVal.int 42] ∧ isDict (PyVal.int 42) = false :=
  ⟨rfl, rfl⟩

/-- C4 amended: every element of the parse result is the successfully
decoded value of some input line, whatever its JSON type — mappings are
not required, and non-mapping decoded lines are included as records. -/
theorem claim_C4_amended (ls : List String) (v : PyVal) (hv : v ∈ parseLines ls) :
    ∃ l ∈ ls, json_loads (pyStrip l) = some v := by
  rw [parseLines_eq] at hv
  obtain ⟨a, ha, hav⟩ := List.mem_filterMap.mp hv
  obtain ⟨l, hl, rfl⟩ := List.mem_map.mp (List.mem_filter.mp ha).1
  exact ⟨l, hl, hav⟩

theorem claim_C4_witness : ∃ l ∈ ["42"], json_loads (pyStrip l) = some (PyVal.int 42) :=
  claim_C4_amended ["42"] (PyVal.int 42)
    (by rw [show parseLines ["42"] = [PyVal.int 42] from rfl]; exact List.mem_singleton.mpr rfl)

/-- C3 as frozen is false: a wrong-typed present field is not replaced by
the default — it is fetched as-is, and the aggregation then raises.  A
parsed record with the string `"fast"` as its `latency` makes the latency
sum raise `TypeError` (Python: `0 + "fast"`). -/
theorem claim_C3_counterexample :
    parseLines ["\x7b\"latency\": \"fast\"\x7d"] =
      [PyVal.dict [("latency", PyVal.str "fast")]] ∧
    calculate_stats [PyVal.dict [("latency", PyVal.str "fast")]] =
      .error "TypeError: unsupported operand type(s) for +" :=
  ⟨rfl, rfl⟩

/-- C3 amended: a field access substitutes the documented default only
when the field is absent (a present value is used as-is, whatever its
type); the aggregation never raises provided every record is a mapping
whose present recognized fields are well-typed — numeric `latency`,
`tokens`, `lazy_streak` and hashable `tool`, `model`. -/
theorem claim_C3_amended (ms : List PyVal) (h : ms.all recordWellTyped = true) :
    (∀ fs k d, dictLookup fs k = none → pyGet (.dict fs) k d = .ok d) ∧
    exceptOk (calculate_stats ms) = true := by
  constructor
  · intro fs k d hl
    simp [pyGet, hl]
  · cases ms with
    | nil => rfl
    | cons m rest =>
      have hW : ∀ x ∈ m :: rest,
          (((getsNumeric x "latency" = true ∧ getsNumeric x "tokens" = true) ∧
            getsNumeric x "lazy_streak" = true) ∧
            getsHashable x "tool" (.str "unknown") = true) ∧
            getsHashable x "model" (.str "unknown") = true := by
        intro x hx
        have hw : recordWellTyped x = true := by
          have hall := List.all_eq_true.mp h
          exact hall x hx
        unfold recordWellTyped at hw
        simpa only [Bool.and_eq_true] using hw
      obtain ⟨tl, htl, htln⟩ := pySum_ok "latency" (m :: rest) (.int 0)
        (fun x hx => (hW x hx).1.1.1.1) rfl
      obtain ⟨tk, htk, htkn⟩ := pySum_ok "tokens" (m :: rest) (.int 0)
        (fun x hx => (hW x hx).1.1.1.2) rfl
      obtain ⟨mx, hmx⟩ := maxField_ok "lazy_streak" m rest
        (fun x hx => (hW x hx).1.1.2)
      obtain ⟨bh, hbh⟩ := buildHists_ok (m :: rest) ([], [])
        (fun x hx => ⟨(hW x hx).1.2, (hW x hx).2⟩)
      simp only [calculate_stats, List.isEmpty_cons, Bool.false_eq_true, if_false,
        List.length_cons, gt_iff_lt, Nat.zero_lt_succ, if_true]
      split
      next e heq => rw [htl] at heq; cases heq
      next tl' heq =>
        rw [htl] at heq
        injection heq with heq
        subst heq
        split
        next e heq => rw [htk] at heq; cases heq
        next tk' heq =>
          rw [htk] at heq
          injection heq with heq
          subst heq
          split
          next e heq => exact absurd heq (pyDiv_int_ne_error htln _ (by omega) e)
          next al heq =>
            split
            next e heq2 => exact absurd heq2 (pyDiv_int_ne_error htkn _ (by omega) e)
            next ak heq2 =>
              split
              next e heq3 => rw [hmx] at heq3; cases heq3
              next ml heq3 =>
                split
                next e heq4 => rw [hbh] at heq4; cases heq4
                next hh heq4 => rfl

theorem claim_C3_witness :
    [r1, r2].all recordWellTyped = true ∧
    exceptOk (calculate_stats [r1, r2]) = true :=
  ⟨rfl, (claim_C3_amended [r1, r2] rfl).2⟩

/-- C5: the line loop strips each line, skips the blank ones, silently
skips the ones whose decoding fails, and appends each successfully decoded
value in file order (the parse result is exactly the ordered filterMap of
the decoder over the stripped non-blank lines); consequently every
reported total_iterations equals the number of decodable lines, and the
malformed-then-valid example yields total_iterations 1. -/
theorem claim_C5_parse_skip_policy :
    (∀ ls, parseLines ls =
      ((ls.map pyStrip).filter (fun l => !l.data.isEmpty)).filterMap json_loads) ∧
    (∀ ls st, calculate_stats (parseLines ls) = .ok (some st) →
      st.total_iterations =
        ((ls.map pyStrip).filter (fun l => !l.data.isEmpty)).countP
          (fun l => (json_loads l).isSome)) ∧
    calculate_stats (parseLines malformedThenValid) = .ok (some statsSingle) := by
  refine ⟨parseLines_eq, ?_, rfl⟩
  intro ls st h
  have hlen := (calculate_stats_spec _ _ h).2.1
  rw [hlen, parseLines_eq, length_filterMap_countP]

theorem claim_C5_witness :
    statsSingle.total_iterations =
      ((malformedThenValid.map pyStrip).filter (fun l => !l.data.isEmpty)).countP
        (fun l => (json_loads l).isSome) :=
  claim_C5_parse_skip_policy.2.1 malformedThenValid statsSingle rfl

/-- C8: the aggregation is a pure function of the parsed records (two runs
on the same input are the same value); two renderings of the same summary
at different timestamps have the same number of report lines and agree on
every line except entry 1, which is exactly the generation-timestamp line;
and the document a run writes is precisely its rendered lines joined with
newlines. -/
theorem claim_C8_determinism_modulo_timestamp :
    (∀ fs input, calculate_stats (parse_metrics fs input).2 =
        calculate_stats (parse_metrics fs input).2) ∧
    (∀ s now now2 l l2, renderLines s now = .ok l → renderLines s now2 = .ok l2 →
      l.length = l2.length ∧ l.eraseIdx 1 = l2.eraseIdx 1 ∧
      l[1]? = some ("\nGenerated on: " ++ now) ∧
      l2[1]? = some ("\nGenerated on: " ++ now2)) ∧
    (∀ s p now l, renderLines s now = .ok l →
      generate_report (some s) (some p) now =
        .ok ⟨["Report generated at " ++ p], some (p, String.intercalate "\n" l)⟩) := by
  refine ⟨fun _ _ => rfl, ?_, ?_⟩
  · intro s now now2 l l2 h h2
    unfold renderLines at h h2
    cases f1 : pyFormatFixed s.total_latency 2 with
    | error e => rw [f1] at h; cases h
    | ok latStr =>
      rw [f1] at h h2
      cases f2 : pyFormatFixed s.avg_latency 2 with
      | error e => rw [f2] at h; cases h
      | ok avgLatStr =>
        rw [f2] at h h2
        cases f3 : pyFormatFixed s.avg_tokens 1 with
        | error e => rw [f3] at h; cases h
        | ok avgTokStr =>
          rw [f3] at h h2
          cases h
          cases h2
          refine ⟨?_, ?_, rfl, rfl⟩
          · simp [summaryLines]
          · simp [summaryLines, List.eraseIdx]
  · intro s p now l h
    simp only [generate_report, h]

theorem claim_C8_witness :
    lines1.length = lines2.length ∧ lines1.eraseIdx 1 = lines2.eraseIdx 1 ∧
    lines1[1]? = some ("\nGenerated on: " ++ "2025-01-01 00:00:00") ∧
    lines2[1]? = some ("\nGenerated on: " ++ "2025-01-02 00:00:00") :=
  claim_C8_determinism_modulo_timestamp.2.1 stats1
    "2025-01-01 00:00:00" "2025-01-02 00:00:00" lines1 lines2 rfl rfl

/-- C9: on a present summary, giving an output path makes `generate_report`
write exactly the full rendered document to that path (and a later read of
that path returns the new content whatever was there before — overwrite
semantics) while printing the confirmation naming the path; giving no
output path makes it print the full document and write no file. -/
theorem claim_C9_output_semantics (s : Stats) (p now : String) (l : List String)
    (h : renderLines s now = .ok l) :
    generate_report (some s) (some p) now =
      .ok ⟨["Report generated at " ++ p], some (p, String.intercalate "\n" l)⟩ ∧
    (∀ fs r, generate_report (some s) (some p) now = .ok r →
      fsRead (applyReport fs r) p = some (String.intercalate "\n" l)) ∧
    generate_report (some s) none now = .ok ⟨[String.intercalate "\n" l], none⟩ := by
  have h1 : generate_report (some s) (some p) now =
      .ok ⟨["Report generated at " ++ p], some (p, String.intercalate "\n" l)⟩ := by
    simp only [generate_report, h]
  refine ⟨h1, ?_, ?_⟩
  · intro fs r hr
    rw [h1] at hr
    cases hr
    simp [applyReport, fsWrite, fsRead]
  · simp only [generate_report, h]

theorem claim_C9_witness :
    generate_report (some stats1) (some "report.md") "2025-01-01 00:00:00" =
      .ok ⟨["Report generated at report.md"],
           some ("report.md", String.intercalate "\n" lines1)⟩ ∧
    fsRead (applyReport [("report.md", "old content")]
        ⟨["Report generated at report.md"],
         some ("report.md", String.intercalate "\n" lines1)⟩) "report.md" =
      some (String.intercalate "\n" lines1) :=
  ⟨(claim_C9_output_semantics stats1 "report.md" "2025-01-01 00:00:00" lines1 rfl).1,
   (claim_C9_output_semantics stats1 "report.md" "2025-01-01 00:00:00" lines1 rfl).2.1
     [("report.md", "old content")] _
     (claim_C9_output_semantics stats1 "report.md" "2025-01-01 00:00:00" lines1 rfl).1⟩
